import Mathlib

/-!
Verification of `scripts/create_project.py`, a one-shot scaffolding script.

The script creates a fixed directory tree and a set of empty placeholder
files under a hardcoded root, printing one status line per item, then
verifies the result by checking existence of a hardcoded list of paths.

Embedding: a filesystem is a finite association list from paths
(lists of components) to entries (directory, or file with content),
together with a set of read-only directories modelling the OS permission
state that Python surfaces as `PermissionError`.  The Python operations
`Path.mkdir(parents=True, exist_ok=True)`, `Path.mkdir(exist_ok=True)`,
`Path.touch()` and `Path.exists()` are translated as functions returning
the updated filesystem and an optional raised error; `print` calls that
depend on the state are collected as lists of output lines (constant
banner prints carry no information about the state and are omitted).
-/

namespace CreateProject

/-- A filesystem entry: a directory, or a regular file with its content. -/
inductive Entry where
  | dir : Entry
  | file : String → Entry
deriving DecidableEq, Repr

/-- A filesystem path, as its list of components. -/
abbrev FPath := List String

/-- The filesystem state: entries keyed by path, plus the set of
directories in which the process is not permitted to create entries
(the source of Python `PermissionError`). -/
structure FS where
  entries : List (FPath × Entry)
  readonly : List FPath
deriving DecidableEq, Repr

/-- Look up the entry at a path. -/
def FS.lookup (fs : FS) (p : FPath) : Option Entry :=
  (fs.entries.find? (fun q => q.1 == p)).map (fun q => q.2)

/-- Add an entry at a path (used only when the path is absent). -/
def FS.insert (fs : FS) (p : FPath) (e : Entry) : FS :=
  { fs with entries := (p, e) :: fs.entries }

/-- Python `Path.exists()`. -/
def FS.existsPath (fs : FS) (p : FPath) : Bool :=
  (fs.lookup p).isSome

/-- The exceptions the script can encounter, mirroring the three
handlers at the bottom of `create_project_structure`:
`PermissionError`, `FileExistsError`, and the catch-all `Exception`
(here `otherError`, carrying the underlying kind such as
NotADirectoryError or FileNotFoundError). -/
inductive PyErr where
  | permissionError : FPath → PyErr
  | fileExistsError : FPath → PyErr
  | otherError : String → FPath → PyErr
deriving DecidableEq, Repr

/-- The nonempty prefixes of a path, shortest first. -/
def prefixesOf (p : FPath) : List FPath :=
  (List.range p.length).map (fun i => p.take (i + 1))

/-- One step of `Path.mkdir(parents=True, exist_ok=True)`: ensure one
prefix `q` of the target is a directory.  An existing directory is
accepted; an existing file raises `FileExistsError` when `q` is the
target itself and `NotADirectoryError` (caught by the generic handler)
when `q` is a strict prefix; creating a missing prefix inside a
read-only directory raises `PermissionError`. -/
def mkdirParentsStep (target : FPath) (acc : FS × Option PyErr) (q : FPath) :
    FS × Option PyErr :=
  match acc with
  | (f, some e) => (f, some e)
  | (f, none) =>
    match f.lookup q with
    | some Entry.dir => (f, none)
    | some (Entry.file _) =>
      if q = target then (f, some (PyErr.fileExistsError q))
      else (f, some (PyErr.otherError "NotADirectoryError" q))
    | none =>
      if q.dropLast ∈ f.readonly then (f, some (PyErr.permissionError q))
      else (f.insert q Entry.dir, none)

/-- Python `Path.mkdir(parents=True, exist_ok=True)` (lines 41 and 56
of the source): ensure every prefix of `p` is a directory, creating the
missing ones. -/
def FS.mkdirParents (fs : FS) (p : FPath) : FS × Option PyErr :=
  (prefixesOf p).foldl (mkdirParentsStep p) (fs, none)

/-- Python `Path.mkdir(exist_ok=True)` without `parents` (line 47 of
the source): the parent must already exist as a directory. -/
def FS.mkdir1 (fs : FS) (p : FPath) : FS × Option PyErr :=
  match fs.lookup p with
  | some Entry.dir => (fs, none)
  | some (Entry.file _) => (fs, some (PyErr.fileExistsError p))
  | none =>
    match fs.lookup p.dropLast with
    | some Entry.dir =>
      if p.dropLast ∈ fs.readonly then (fs, some (PyErr.permissionError p))
      else (fs.insert p Entry.dir, none)
    | some (Entry.file _) => (fs, some (PyErr.otherError "NotADirectoryError" p))
    | none =>
      if p.dropLast = [] then
        (if p.dropLast ∈ fs.readonly then (fs, some (PyErr.permissionError p))
         else (fs.insert p Entry.dir, none))
      else (fs, some (PyErr.otherError "FileNotFoundError" p))

/-- Python `Path.touch()` (line 60 of the source): create an empty file;
on an existing path only the timestamp (not modelled) changes. -/
def FS.touch (fs : FS) (p : FPath) : FS × Option PyErr :=
  match fs.lookup p with
  | some _ => (fs, none)
  | none =>
    match fs.lookup p.dropLast with
    | some Entry.dir =>
      if p.dropLast ∈ fs.readonly then (fs, some (PyErr.permissionError p))
      else (fs.insert p (Entry.file ""), none)
    | some (Entry.file _) => (fs, some (PyErr.otherError "NotADirectoryError" p))
    | none =>
      if p.dropLast = [] then
        (if p.dropLast ∈ fs.readonly then (fs, some (PyErr.permissionError p))
         else (fs.insert p (Entry.file ""), none))
      else (fs, some (PyErr.otherError "FileNotFoundError" p))

/-- Line 15 of the source: the hardcoded base path. -/
def basePath : FPath :=
  ["C:", "Users", "damja", "WebstormProjects", "Shirtful", "Wareneingang"]

/-- Line 16 of the source: `project_path = base_path / "rfid-qr-app"`. -/
def projectPath : FPath := basePath ++ ["rfid-qr-app"]

/-- Lines 19 to 23 of the source: the declared subdirectories. -/
def directories : List String := ["renderer", "rfid", "db"]

/-- Lines 25 to 36 of the source: the declared files. -/
def files : List String :=
  ["main.js", "preload.js", "renderer/index.html", "renderer/app.js",
   "renderer/styles.css", "rfid/rfid-listener.js", "db/db-client.js",
   ".env", "package.json", "electron-builder.yml"]

/-- Split a character list into slash-separated components (structural
recursion so that proofs can evaluate it). -/
def splitComponentsAux : List Char → List Char → List String
  | [], acc => [String.mk acc.reverse]
  | c :: cs, acc =>
    if c = '/' then String.mk acc.reverse :: splitComponentsAux cs []
    else splitComponentsAux cs (c :: acc)

/-- `project_path / file_path` splits the relative string on slashes,
matching how pathlib parses the relative paths used in the script. -/
def fileComponents (f : String) : FPath := splitComponentsAux f.data []

/-- Line 48 of the source: the status line for a subdirectory (printed
unconditionally, whether the directory was created or already existed). -/
def dirLine (d : String) : String := "  ✓ " ++ d ++ "/"

/-- Line 61 of the source: the status line for a newly created file. -/
def fileCreatedLine (f : String) : String := "  ✓ " ++ f

/-- Line 63 of the source: the status line for an already existing file. -/
def fileAlreadyLine (f : String) : String := "  → " ++ f ++ " (bereits vorhanden)"

/-- Line 66 of the source: the success summary line. -/
def successLine : String := "✅ Projektstruktur erfolgreich erstellt!"

/-- Render a path the way Python prints it. -/
def showFPath (p : FPath) : String := String.intercalate "\\" p

/-- Lines 100 to 111 of the source: the message printed by the handler
that catches each kind of exception. -/
def errLine : PyErr → String
  | PyErr.permissionError _ =>
    "❌ Fehler: Keine Berechtigung zum Erstellen von Dateien in " ++ showFPath basePath
  | PyErr.fileExistsError p =>
    "❌ Fehler: [Errno 17] File exists: " ++ showFPath p
  | PyErr.otherError m p =>
    "❌ Unerwarteter Fehler: " ++ m ++ ": " ++ showFPath p

/-- Lines 45 to 48 of the source: one iteration of the subdirectory
loop (`dir_path.mkdir(exist_ok=True)` followed by the status print). -/
def dirStep (acc : FS × List String × Option PyErr) (d : String) :
    FS × List String × Option PyErr :=
  match acc with
  | (f, out, some e) => (f, out, some e)
  | (f, out, none) =>
    match f.mkdir1 (projectPath ++ [d]) with
    | (f2, some e) => (f2, out, some e)
    | (f2, none) => (f2, out ++ [dirLine d], none)

/-- Lines 52 to 63 of the source: one iteration of the file loop
(ensure the parent chain, then create the file only when absent). -/
def fileStep (acc : FS × List String × Option PyErr) (fname : String) :
    FS × List String × Option PyErr :=
  match acc with
  | (f, out, some e) => (f, out, some e)
  | (f, out, none) =>
    match f.mkdirParents (projectPath ++ fileComponents fname).dropLast with
    | (f2, some e) => (f2, out, some e)
    | (f2, none) =>
      if f2.existsPath (projectPath ++ fileComponents fname) then
        (f2, out ++ [fileAlreadyLine fname], none)
      else
        match f2.touch (projectPath ++ fileComponents fname) with
        | (f3, some e) => (f3, out, some e)
        | (f3, none) => (f3, out ++ [fileCreatedLine fname], none)

/-- The body of the `try` block of `create_project_structure`
(lines 38 to 98): root creation, the subdirectory loop, the file loop.
Returns the final filesystem, the state-dependent output lines, and
the raised exception if any. -/
def createBody (fs : FS) : FS × List String × Option PyErr :=
  match fs.mkdirParents projectPath with
  | (f1, some e) => (f1, [], some e)
  | (f1, none) =>
    match directories.foldl dirStep (f1, [], none) with
    | (f2, out2, some e) => (f2, out2, some e)
    | (f2, out2, none) => files.foldl fileStep (f2, out2, none)

/-- `create_project_structure` (lines 11 to 111): run the body, catch
any exception, print its message, and return `False`; on success print
the summary and return `True`. -/
def createProjectStructure (fs : FS) : Bool × FS × List String :=
  match createBody fs with
  | (f, out, some e) => (false, f, out ++ [errLine e])
  | (f, out, none) => (true, f, out ++ [successLine])

/-- Lines 117 to 131 of the source: the hardcoded list of expected
items checked by `verify_structure`. -/
def expectedItems : List String :=
  ["main.js", "preload.js", "renderer", "renderer/index.html",
   "renderer/app.js", "renderer/styles.css", "rfid",
   "rfid/rfid-listener.js", "db", "db/db-client.js", ".env",
   "package.json", "electron-builder.yml"]

/-- Lines 134 to 140 of the source: one iteration of the verification
loop, printing a status line and clearing `all_good` on a miss. -/
def verifyStep (pp : FPath) (fs : FS) (acc : Bool × List String) (it : String) :
    Bool × List String :=
  if fs.existsPath (pp ++ fileComponents it) then
    (acc.1, acc.2 ++ ["  ✓ " ++ it])
  else
    (false, acc.2 ++ ["  ❌ " ++ it ++ " - FEHLT!"])

/-- `verify_structure` (lines 113 to 142): check each expected item in
declaration order, returning `all_good` and the per-item lines. -/
def verifyStructure (pp : FPath) (fs : FS) : Bool × List String :=
  expectedItems.foldl (verifyStep pp fs) (true, [])

/-- Line 151 of the source: the project path hardcoded a second time in
the `__main__` block. -/
def mainProjectPath : FPath :=
  ["C:", "Users", "damja", "WebstormProjects", "Shirtful", "Wareneingang",
   "rfid-qr-app"]

/-- Line 153 of the source: the final success message of the driver. -/
def setupDoneLine : String :=
  "✅ Setup komplett! Sie können nun mit der Entwicklung beginnen."

/-- Line 155 of the source: the final failure message of the driver. -/
def setupFailedLine : String :=
  "❌ Setup fehlgeschlagen. Bitte überprüfen Sie die Fehlermeldungen oben."

/-- The `__main__` block (lines 144 to 156): run create, and on success
run verify (discarding its boolean) and exit 0; on failure exit 1 via
`sys.exit(1)`.  Returns (exit code, final filesystem, output lines). -/
def mainRun (fs : FS) : Nat × FS × List String :=
  match createProjectStructure fs with
  | (true, f1, out1) =>
    match verifyStructure mainProjectPath f1 with
    | (_, out2) => (0, f1, out1 ++ out2 ++ [setupDoneLine])
  | (false, f1, out1) => (1, f1, out1 ++ [setupFailedLine])

/-- The empty filesystem: no entries at all (in particular none of the
parent directories of the hardcoded root exist) and no read-only
directories. -/
def emptyFS : FS := { entries := [], readonly := [] }

/-- A filesystem in which the declared subdirectory `renderer` is
occupied by a regular file. -/
def conflictFS : FS :=
  { entries := [(projectPath ++ ["renderer"], Entry.file "x")], readonly := [] }

/-- A filesystem in which creating the last base directory is denied. -/
def readonlyFS : FS :=
  { entries := [],
    readonly := [["C:", "Users", "damja", "WebstormProjects", "Shirtful"]] }

/-- A filesystem in which the declared file `main.js` is already
occupied by a file with non-empty content. -/
def occupiedFileFS : FS :=
  { entries := [(projectPath ++ ["main.js"], Entry.file "occupied")],
    readonly := [] }

/-! ### Basic lemmas about the filesystem model -/

theorem lookup_insert (fs : FS) (q : FPath) (e : Entry) (p : FPath) :
    (fs.insert q e).lookup p = if q = p then some e else fs.lookup p := by
  by_cases h : q = p
  · subst h
    simp [FS.insert, FS.lookup, List.find?]
  · have hb : (q == p) = false := beq_eq_false_iff_ne.mpr h
    simp [FS.insert, FS.lookup, List.find?, hb, h]

theorem lookup_insert_self (fs : FS) (q : FPath) (e : Entry) :
    (fs.insert q e).lookup q = some e := by
  simp [lookup_insert]

/-- Inserting at an absent path does not disturb any present entry. -/
theorem lookup_insert_pres (fs : FS) (q : FPath) (e' : Entry) (p : FPath) (e : Entry)
    (hq : fs.lookup q = none) (h : fs.lookup p = some e) :
    (fs.insert q e').lookup p = some e := by
  rw [lookup_insert]
  split
  · next heq => subst heq; simp [h] at hq
  · exact h

/-! ### Preservation: no operation removes or changes an existing entry -/

theorem mkdirParentsStep_pres (t : FPath) (acc : FS × Option PyErr) (q p : FPath)
    (e : Entry) (h : acc.1.lookup p = some e) :
    ((mkdirParentsStep t acc q).1).lookup p = some e := by
  obtain ⟨f, o⟩ := acc
  cases o with
  | some err => exact h
  | none =>
    cases hq : f.lookup q with
    | none =>
      simp only [mkdirParentsStep, hq]
      split
      · exact h
      · exact lookup_insert_pres f q Entry.dir p e hq h
    | some en =>
      cases en with
      | dir => simpa [mkdirParentsStep, hq] using h
      | file c =>
        simp only [mkdirParentsStep, hq]
        split <;> exact h

theorem mkdirParents_fold_pres (l : List FPath) (t : FPath) (acc : FS × Option PyErr)
    (p : FPath) (e : Entry) (h : acc.1.lookup p = some e) :
    ((l.foldl (mkdirParentsStep t) acc).1).lookup p = some e := by
  induction l generalizing acc with
  | nil => exact h
  | cons q l ih =>
    exact ih (mkdirParentsStep t acc q) (mkdirParentsStep_pres t acc q p e h)

theorem mkdirParents_pres (f : FS) (t p : FPath) (e : Entry)
    (h : f.lookup p = some e) : ((f.mkdirParents t).1).lookup p = some e :=
  mkdirParents_fold_pres (prefixesOf t) t (f, none) p e h

theorem mkdir1_pres (f : FS) (q p : FPath) (e : Entry) (h : f.lookup p = some e) :
    ((f.mkdir1 q).1).lookup p = some e := by
  cases hq : f.lookup q with
  | none =>
    cases hqp : f.lookup q.dropLast with
    | none =>
      simp only [FS.mkdir1, hq, hqp]
      split
      · split
        · exact h
        · exact lookup_insert_pres f q Entry.dir p e hq h
      · exact h
    | some en =>
      cases en with
      | dir =>
        simp only [FS.mkdir1, hq, hqp]
        split
        · exact h
        · exact lookup_insert_pres f q Entry.dir p e hq h
      | file c => simpa [FS.mkdir1, hq, hqp] using h
  | some en =>
    cases en with
    | dir => simpa [FS.mkdir1, hq] using h
    | file c => simpa [FS.mkdir1, hq] using h

theorem touch_pres (f : FS) (q p : FPath) (e : Entry) (h : f.lookup p = some e) :
    ((f.touch q).1).lookup p = some e := by
  cases hq : f.lookup q with
  | none =>
    cases hqp : f.lookup q.dropLast with
    | none =>
      simp only [FS.touch, hq, hqp]
      split
      · split
        · exact h
        · exact lookup_insert_pres f q (Entry.file "") p e hq h
      · exact h
    | some en =>
      cases en with
      | dir =>
        simp only [FS.touch, hq, hqp]
        split
        · exact h
        · exact lookup_insert_pres f q (Entry.file "") p e hq h
      | file c => simpa [FS.touch, hq, hqp] using h
  | some en => simpa [FS.touch, hq] using h

theorem dirStep_pres (acc : FS × List String × Option PyErr) (d : String)
    (p : FPath) (e : Entry) (h : acc.1.lookup p = some e) :
    ((dirStep acc d).1).lookup p = some e := by
  obtain ⟨f, out, o⟩ := acc
  cases o with
  | some err => exact h
  | none =>
    have hm := mkdir1_pres f (projectPath ++ [d]) p e h
    simp only [dirStep]
    cases hk : f.mkdir1 (projectPath ++ [d]) with
    | mk f2 o2 =>
      rw [hk] at hm
      cases o2 <;> exact hm

theorem dirLoop_pres (l : List String) (acc : FS × List String × Option PyErr)
    (p : FPath) (e : Entry) (h : acc.1.lookup p = some e) :
    ((l.foldl dirStep acc).1).lookup p = some e := by
  induction l generalizing acc with
  | nil => exact h
  | cons d l ih => exact ih (dirStep acc d) (dirStep_pres acc d p e h)

theorem fileStep_pres (acc : FS × List String × Option PyErr) (g : String)
    (p : FPath) (e : Entry) (h : acc.1.lookup p = some e) :
    ((fileStep acc g).1).lookup p = some e := by
  obtain ⟨f, out, o⟩ := acc
  cases o with
  | some err => exact h
  | none =>
    simp only [fileStep]
    split
    next f2 e2 heq =>
      have hm := mkdirParents_pres f (projectPath ++ fileComponents g).dropLast p e h
      rw [heq] at hm
      exact hm
    next f2 heq =>
      have hm := mkdirParents_pres f (projectPath ++ fileComponents g).dropLast p e h
      rw [heq] at hm
      split
      · exact hm
      · split
        next f3 e3 heq2 =>
          have ht := touch_pres f2 (projectPath ++ fileComponents g) p e hm
          rw [heq2] at ht
          exact ht
        next f3 heq2 =>
          have ht := touch_pres f2 (projectPath ++ fileComponents g) p e hm
          rw [heq2] at ht
          exact ht

theorem fileLoop_pres (l : List String) (acc : FS × List String × Option PyErr)
    (p : FPath) (e : Entry) (h : acc.1.lookup p = some e) :
    ((l.foldl fileStep acc).1).lookup p = some e := by
  induction l generalizing acc with
  | nil => exact h
  | cons g l ih => exact ih (fileStep acc g) (fileStep_pres acc g p e h)

/-- The whole creation routine never removes or modifies an existing
entry, whether it succeeds or aborts. -/
theorem createBody_pres (fs : FS) (p : FPath) (e : Entry)
    (h : fs.lookup p = some e) : ((createBody fs).1).lookup p = some e := by
  simp only [createBody]
  split
  next f1 e1 heq =>
    have h1 := mkdirParents_pres fs projectPath p e h
    rw [heq] at h1
    exact h1
  next f1 heq =>
    have h1 := mkdirParents_pres fs projectPath p e h
    rw [heq] at h1
    split
    next f2 out2 e2 heq2 =>
      have h2 := dirLoop_pres directories (f1, [], none) p e h1
      rw [heq2] at h2
      exact h2
    next f2 out2 heq2 =>
      have h2 := dirLoop_pres directories (f1, [], none) p e h1
      rw [heq2] at h2
      exact fileLoop_pres files (f2, out2, none) p e h2

theorem create_pres (fs : FS) (p : FPath) (e : Entry)
    (h : fs.lookup p = some e) :
    ((createProjectStructure fs).2.1).lookup p = some e := by
  simp only [createProjectStructure]
  split
  next f out e1 heq =>
    have hb := createBody_pres fs p e h
    rw [heq] at hb
    exact hb
  next f out heq =>
    have hb := createBody_pres fs p e h
    rw [heq] at hb
    exact hb

/-! ### Error states absorb the rest of a loop -/

theorem mkdirParents_fold_absorb (l : List FPath) (t : FPath) (f : FS) (e : PyErr) :
    l.foldl (mkdirParentsStep t) (f, some e) = (f, some e) := by
  induction l with
  | nil => rfl
  | cons q l ih => exact ih

theorem dirLoop_absorb (l : List String) (f : FS) (out : List String) (e : PyErr) :
    l.foldl dirStep (f, out, some e) = (f, out, some e) := by
  induction l with
  | nil => rfl
  | cons d l ih => exact ih

theorem fileLoop_absorb (l : List String) (f : FS) (out : List String) (e : PyErr) :
    l.foldl fileStep (f, out, some e) = (f, out, some e) := by
  induction l with
  | nil => rfl
  | cons g l ih => exact ih

/-! ### Output lines are only ever appended -/

theorem dirLoop_out_extends (l : List String) (acc : FS × List String × Option PyErr) :
    ∃ r, ((l.foldl dirStep acc).2.1) = acc.2.1 ++ r := by
  induction l generalizing acc with
  | nil => exact ⟨[], by simp⟩
  | cons d l ih =>
    obtain ⟨f, out, o⟩ := acc
    cases o with
    | some err => exact ⟨[], by rw [dirLoop_absorb]; simp⟩
    | none =>
      simp only [List.foldl_cons]
      obtain ⟨r, hr⟩ := ih (dirStep (f, out, none) d)
      refine ⟨(dirStep (f, out, none) d).2.1.drop out.length ++ r, ?_⟩
      rw [hr]
      have : (dirStep (f, out, none) d).2.1 = out ++ (dirStep (f, out, none) d).2.1.drop out.length := by
        simp only [dirStep]
        split <;> simp [List.drop_left]
      rw [← List.append_assoc, ← this]

theorem fileLoop_out_extends (l : List String) (acc : FS × List String × Option PyErr) :
    ∃ r, ((l.foldl fileStep acc).2.1) = acc.2.1 ++ r := by
  induction l generalizing acc with
  | nil => exact ⟨[], by simp⟩
  | cons g l ih =>
    obtain ⟨f, out, o⟩ := acc
    cases o with
    | some err => exact ⟨[], by rw [fileLoop_absorb]; simp⟩
    | none =>
      simp only [List.foldl_cons]
      obtain ⟨r, hr⟩ := ih (fileStep (f, out, none) g)
      refine ⟨(fileStep (f, out, none) g).2.1.drop out.length ++ r, ?_⟩
      rw [hr]
      have : (fileStep (f, out, none) g).2.1 = out ++ (fileStep (f, out, none) g).2.1.drop out.length := by
        simp only [fileStep]
        split
        next => simp [List.drop_left]
        next =>
          split
          · simp [List.drop_left]
          · split <;> simp [List.drop_left]
      rw [← List.append_assoc, ← this]

theorem dirLoop_out_mem (l : List String) (acc : FS × List String × Option PyErr)
    (x : String) (h : x ∈ acc.2.1) : x ∈ (l.foldl dirStep acc).2.1 := by
  obtain ⟨r, hr⟩ := dirLoop_out_extends l acc
  rw [hr]
  exact List.mem_append_left r h

theorem fileLoop_out_mem (l : List String) (acc : FS × List String × Option PyErr)
    (x : String) (h : x ∈ acc.2.1) : x ∈ (l.foldl fileStep acc).2.1 := by
  obtain ⟨r, hr⟩ := fileLoop_out_extends l acc
  rw [hr]
  exact List.mem_append_left r h

/-! ### Postconditions of successful operations -/

theorem existsPath_of_lookup (f : FS) (p : FPath) (e : Entry)
    (h : f.lookup p = some e) : f.existsPath p = true := by
  simp [FS.existsPath, h]

theorem lookup_of_existsPath (f : FS) (p : FPath)
    (h : f.existsPath p = true) : ∃ e, f.lookup p = some e := by
  simpa [FS.existsPath, Option.isSome_iff_exists] using h

theorem mkdirParentsStep_post (t : FPath) (f : FS) (q : FPath)
    (h : (mkdirParentsStep t (f, none) q).2 = none) :
    ((mkdirParentsStep t (f, none) q).1).lookup q = some Entry.dir := by
  cases hq : f.lookup q with
  | none =>
    by_cases hr : q.dropLast ∈ f.readonly
    · simp [mkdirParentsStep, hq, hr] at h
    · simp only [mkdirParentsStep, hq]
      rw [if_neg hr]
      exact lookup_insert_self f q Entry.dir
  | some en =>
    cases en with
    | dir => simp [mkdirParentsStep, hq]
    | file c =>
      simp only [mkdirParentsStep, hq] at h
      split at h <;> simp at h

theorem mkdirParents_fold_post (l : List FPath) (t : FPath) (f : FS)
    (h : (l.foldl (mkdirParentsStep t) (f, none)).2 = none) :
    ∀ q ∈ l, ((l.foldl (mkdirParentsStep t) (f, none)).1).lookup q = some Entry.dir := by
  induction l generalizing f with
  | nil => intro q hq; cases hq
  | cons a l ih =>
    intro q hq
    rw [List.foldl_cons] at h ⊢
    cases hs : mkdirParentsStep t (f, none) a with
    | mk f1 o1 =>
      rw [hs] at h
      cases o1 with
      | some e1 => rw [mkdirParents_fold_absorb] at h; cases h
      | none =>
        rcases List.mem_cons.mp hq with rfl | hql
        · have ha : f1.lookup q = some Entry.dir := by
            have := mkdirParentsStep_post t f q
            rw [hs] at this
            exact this rfl
          exact mkdirParents_fold_pres l t (f1, none) q Entry.dir ha
        · exact ih f1 h q hql

theorem mkdirParents_post (f : FS) (t : FPath)
    (h : (f.mkdirParents t).2 = none) :
    ∀ q ∈ prefixesOf t, ((f.mkdirParents t).1).lookup q = some Entry.dir :=
  mkdirParents_fold_post (prefixesOf t) t f h

theorem mkdir1_post (f : FS) (q : FPath) (h : (f.mkdir1 q).2 = none) :
    ((f.mkdir1 q).1).lookup q = some Entry.dir := by
  cases hq : f.lookup q with
  | none =>
    cases hqp : f.lookup q.dropLast with
    | none =>
      by_cases he : q.dropLast = []
      · by_cases hr : q.dropLast ∈ f.readonly
        · rw [he] at hqp hr
          simp [FS.mkdir1, hq, hqp, he, hr] at h
        · simp only [FS.mkdir1, hq, hqp]
          rw [if_pos he, if_neg hr]
          exact lookup_insert_self f q Entry.dir
      · simp [FS.mkdir1, hq, hqp, he] at h
    | some en =>
      cases en with
      | dir =>
        by_cases hr : q.dropLast ∈ f.readonly
        · simp [FS.mkdir1, hq, hqp, hr] at h
        · simp only [FS.mkdir1, hq, hqp]
          rw [if_neg hr]
          exact lookup_insert_self f q Entry.dir
      | file c => simp [FS.mkdir1, hq, hqp] at h
  | some en =>
    cases en with
    | dir => simp [FS.mkdir1, hq]
    | file c => simp [FS.mkdir1, hq] at h

theorem touch_post (f : FS) (q : FPath) (h : (f.touch q).2 = none) :
    ((f.touch q).1).existsPath q = true := by
  cases hq : f.lookup q with
  | none =>
    cases hqp : f.lookup q.dropLast with
    | none =>
      by_cases he : q.dropLast = []
      · by_cases hr : q.dropLast ∈ f.readonly
        · rw [he] at hqp hr
          simp [FS.touch, hq, hqp, he, hr] at h
        · simp only [FS.touch, hq, hqp]
          rw [if_pos he, if_neg hr]
          exact existsPath_of_lookup _ q (Entry.file "")
            (lookup_insert_self f q (Entry.file ""))
      · simp [FS.touch, hq, hqp, he] at h
    | some en =>
      cases en with
      | dir =>
        by_cases hr : q.dropLast ∈ f.readonly
        · simp [FS.touch, hq, hqp, hr] at h
        · simp only [FS.touch, hq, hqp]
          rw [if_neg hr]
          exact existsPath_of_lookup _ q (Entry.file "")
            (lookup_insert_self f q (Entry.file ""))
      | file c => simp [FS.touch, hq, hqp] at h
  | some en => simpa [FS.touch, hq] using existsPath_of_lookup f q en hq

theorem dirLoop_post (l : List String) (f : FS) (out : List String)
    (h : (l.foldl dirStep (f, out, none)).2.2 = none) :
    ∀ d ∈ l, ((l.foldl dirStep (f, out, none)).1).lookup (projectPath ++ [d]) =
      some Entry.dir := by
  induction l generalizing f out with
  | nil => intro d hd; cases hd
  | cons a l ih =>
    intro d hd
    rw [List.foldl_cons] at h ⊢
    cases hs : dirStep (f, out, none) a with
    | mk f1 rest =>
      rw [hs] at h
      obtain ⟨out1, o1⟩ := rest
      cases o1 with
      | some e1 => rw [dirLoop_absorb] at h; cases h
      | none =>
        rcases List.mem_cons.mp hd with rfl | hdl
        · have ha : f1.lookup (projectPath ++ [d]) = some Entry.dir := by
            have hp := mkdir1_post f (projectPath ++ [d])
            simp only [dirStep] at hs
            cases hk : f.mkdir1 (projectPath ++ [d]) with
            | mk f2 o2 =>
              rw [hk] at hs hp
              cases o2 with
              | some e2 => cases hs
              | none =>
                cases hs
                exact hp rfl
          exact dirLoop_pres l (f1, out1, none) (projectPath ++ [d]) Entry.dir ha
        · exact ih f1 out1 h d hdl

theorem fileStep_post (f : FS) (out : List String) (g : String)
    (h : (fileStep (f, out, none) g).2.2 = none) :
    ((fileStep (f, out, none) g).1).existsPath (projectPath ++ fileComponents g) = true := by
  simp only [fileStep] at h ⊢
  split at h
  next f2 e2 heq => cases h
  next f2 heq =>
    split at h
    next hex => simp [hex]
    next hex =>
      rw [if_neg hex]
      split at h
      next f3 e3 heq2 => cases h
      next f3 heq2 =>
        have ht := touch_post f2 (projectPath ++ fileComponents g)
        rw [heq2] at ht
        exact ht rfl

theorem fileLoop_post (l : List String) (f : FS) (out : List String)
    (h : (l.foldl fileStep (f, out, none)).2.2 = none) :
    ∀ g ∈ l, ((l.foldl fileStep (f, out, none)).1).existsPath
      (projectPath ++ fileComponents g) = true := by
  induction l generalizing f out with
  | nil => intro g hg; cases hg
  | cons a l ih =>
    intro g hg
    rw [List.foldl_cons] at h ⊢
    cases hs : fileStep (f, out, none) a with
    | mk f1 rest =>
      rw [hs] at h
      obtain ⟨out1, o1⟩ := rest
      cases o1 with
      | some e1 => rw [fileLoop_absorb] at h; cases h
      | none =>
        rcases List.mem_cons.mp hg with rfl | hgl
        · have ha : f1.existsPath (projectPath ++ fileComponents g) = true := by
            have hp := fileStep_post f out g
            rw [hs] at hp
            exact hp rfl
          obtain ⟨e, he⟩ := lookup_of_existsPath f1 _ ha
          exact existsPath_of_lookup _ _ e
            (fileLoop_pres l (f1, out1, none) _ e he)
        · exact ih f1 out1 h g hgl

theorem createBody_post (fs : FS) (h : (createBody fs).2.2 = none) :
    (∀ q ∈ prefixesOf projectPath,
      ((createBody fs).1).lookup q = some Entry.dir) ∧
    (∀ d ∈ directories,
      ((createBody fs).1).lookup (projectPath ++ [d]) = some Entry.dir) ∧
    (∀ g ∈ files,
      ((createBody fs).1).existsPath (projectPath ++ fileComponents g) = true) := by
  simp only [createBody] at h ⊢
  split at h
  next f1 e1 heq => cases h
  next f1 heq =>
    split at h
    next f2 out2 e2 heq2 => cases h
    next f2 out2 heq2 =>
      refine ⟨?_, ?_, ?_⟩
      · intro q hq
        have h1 := mkdirParents_post fs projectPath (by rw [heq]) q hq
        rw [heq] at h1
        have h2 := dirLoop_pres directories (f1, [], none) q Entry.dir h1
        rw [heq2] at h2
        exact fileLoop_pres files (f2, out2, none) q Entry.dir h2
      · intro d hd
        have h1 := dirLoop_post directories f1 [] (by rw [heq2]) d hd
        rw [heq2] at h1
        exact fileLoop_pres files (f2, out2, none) _ Entry.dir h1
      · intro g hg
        exact fileLoop_post files f2 out2 h g hg

/-- The success flag of `create_project_structure` is `True` exactly
when the body raised no exception. -/
theorem create_success_iff (fs : FS) :
    (createProjectStructure fs).1 = true ↔ (createBody fs).2.2 = none := by
  simp only [createProjectStructure]
  split
  next f out e heq => simp [heq]
  next f out heq => simp [heq]

theorem create_post (fs : FS) (h : (createProjectStructure fs).1 = true) :
    (∀ q ∈ prefixesOf projectPath,
      ((createProjectStructure fs).2.1).lookup q = some Entry.dir) ∧
    (∀ d ∈ directories,
      ((createProjectStructure fs).2.1).lookup (projectPath ++ [d]) = some Entry.dir) ∧
    (∀ g ∈ files,
      ((createProjectStructure fs).2.1).existsPath (projectPath ++ fileComponents g) = true) := by
  have hb : (createBody fs).2.2 = none := (create_success_iff fs).mp h
  have hpost := createBody_post fs hb
  have hfs : (createProjectStructure fs).2.1 = (createBody fs).1 := by
    simp only [createProjectStructure]
    split
    next f out e heq => rw [heq]
    next f out heq => rw [heq]
  rw [hfs]
  exact hpost

/-- The verification loop, characterised: `all_good` is the conjunction
of the per-item existence checks, and the output is one line per item
in declaration order. -/
theorem verify_fold (pp : FPath) (fs : FS) (l : List String) (g : Bool)
    (out : List String) :
    l.foldl (verifyStep pp fs) (g, out) =
      (g && l.all (fun it => fs.existsPath (pp ++ fileComponents it)),
       out ++ l.map (fun it =>
         if fs.existsPath (pp ++ fileComponents it) then "  ✓ " ++ it
         else "  ❌ " ++ it ++ " - FEHLT!")) := by
  induction l generalizing g out with
  | nil => simp
  | cons a l ih =>
    rw [List.foldl_cons]
    cases ha : fs.existsPath (pp ++ fileComponents a) with
    | true =>
      have hstep : verifyStep pp fs (g, out) a = (g, out ++ ["  ✓ " ++ a]) := by
        simp [verifyStep, ha]
      rw [hstep, ih]
      simp [ha]
    | false =>
      have hstep : verifyStep pp fs (g, out) a =
          (false, out ++ ["  ❌ " ++ a ++ " - FEHLT!"]) := by
        simp [verifyStep, ha]
      rw [hstep, ih]
      simp [ha]

/-! ### Stability: a filesystem already containing the layout is left
unchanged by a second run -/

theorem mkdirParents_fold_stable (l : List FPath) (t : FPath) (f : FS)
    (h : ∀ q ∈ l, f.lookup q = some Entry.dir) :
    l.foldl (mkdirParentsStep t) (f, none) = (f, none) := by
  induction l with
  | nil => rfl
  | cons a l ih =>
    rw [List.foldl_cons]
    have hstep : mkdirParentsStep t (f, none) a = (f, none) := by
      simp [mkdirParentsStep, h a (List.mem_cons_self a l)]
    rw [hstep]
    exact ih (fun q hq => h q (List.mem_cons_of_mem a hq))

theorem mkdirParents_stable (f : FS) (p : FPath)
    (h : ∀ q ∈ prefixesOf p, f.lookup q = some Entry.dir) :
    f.mkdirParents p = (f, none) :=
  mkdirParents_fold_stable (prefixesOf p) p f h

theorem dirLoop_stable (l : List String) (f : FS) (out : List String)
    (h : ∀ d ∈ l, f.lookup (projectPath ++ [d]) = some Entry.dir) :
    l.foldl dirStep (f, out, none) = (f, out ++ l.map dirLine, none) := by
  induction l generalizing out with
  | nil => simp
  | cons a l ih =>
    rw [List.foldl_cons]
    have hm : f.mkdir1 (projectPath ++ [a]) = (f, none) := by
      simp [FS.mkdir1, h a (List.mem_cons_self a l)]
    have hstep : dirStep (f, out, none) a = (f, out ++ [dirLine a], none) := by
      simp [dirStep, hm]
    rw [hstep, ih (out ++ [dirLine a]) (fun d hd => h d (List.mem_cons_of_mem a hd))]
    simp

theorem fileStep_stable (f : FS) (out : List String) (g : String)
    (hpre : ∀ q ∈ prefixesOf (projectPath ++ fileComponents g).dropLast,
      f.lookup q = some Entry.dir)
    (hex : f.existsPath (projectPath ++ fileComponents g) = true) :
    fileStep (f, out, none) g = (f, out ++ [fileAlreadyLine g], none) := by
  have hm : f.mkdirParents (projectPath ++ fileComponents g).dropLast = (f, none) :=
    mkdirParents_stable f _ hpre
  simp [fileStep, hm, hex]

theorem fileLoop_stable (l : List String) (f : FS) (out : List String)
    (h : ∀ g ∈ l,
      (∀ q ∈ prefixesOf (projectPath ++ fileComponents g).dropLast,
        f.lookup q = some Entry.dir) ∧
      f.existsPath (projectPath ++ fileComponents g) = true) :
    l.foldl fileStep (f, out, none) = (f, out ++ l.map fileAlreadyLine, none) := by
  induction l generalizing out with
  | nil => simp
  | cons a l ih =>
    rw [List.foldl_cons]
    obtain ⟨hpre, hex⟩ := h a (List.mem_cons_self a l)
    rw [fileStep_stable f out a hpre hex,
      ih (out ++ [fileAlreadyLine a]) (fun g hg => h g (List.mem_cons_of_mem a hg))]
    simp

/-- Every prefix of the parent of a declared file path is either a
prefix of the project path itself or the path of a declared
subdirectory (a closed fact about the hardcoded layout). -/
theorem files_parent_cover : ∀ g ∈ files,
    ∀ q ∈ prefixesOf (projectPath ++ fileComponents g).dropLast,
      q ∈ prefixesOf projectPath ∨ ∃ d ∈ directories, q = projectPath ++ [d] := by
  decide

/-- On a filesystem that already contains the whole layout,
`create_project_structure` succeeds, leaves the filesystem exactly as
it was, and reports every declared file as already present and every
declared subdirectory with the same unconditional checkmark line that
a creating run prints. -/
theorem create_stable (f : FS)
    (H1 : ∀ q ∈ prefixesOf projectPath, f.lookup q = some Entry.dir)
    (H2 : ∀ d ∈ directories, f.lookup (projectPath ++ [d]) = some Entry.dir)
    (H3 : ∀ g ∈ files, f.existsPath (projectPath ++ fileComponents g) = true) :
    createProjectStructure f =
      (true, f, directories.map dirLine ++ files.map fileAlreadyLine ++ [successLine]) := by
  have hm : f.mkdirParents projectPath = (f, none) := mkdirParents_stable f _ H1
  have hd : directories.foldl dirStep (f, [], none) =
      (f, [] ++ directories.map dirLine, none) := dirLoop_stable directories f [] H2
  have hf : files.foldl fileStep (f, directories.map dirLine, none) =
      (f, directories.map dirLine ++ files.map fileAlreadyLine, none) :=
    fileLoop_stable files f (directories.map dirLine) (fun g hg =>
      ⟨fun q hq => by
        rcases files_parent_cover g hg q hq with hq1 | ⟨d, hd', rfl⟩
        · exact H1 q hq1
        · exact H2 d hd', H3 g hg⟩)
  have hb : createBody f =
      (f, directories.map dirLine ++ files.map fileAlreadyLine, none) := by
    simp only [createBody, hm]
    rw [show ([] : List String) ++ directories.map dirLine = directories.map dirLine
      from rfl] at hd
    simp only [hd, hf]
  simp [createProjectStructure, hb]

/-! ### The driver: exit code and messages -/

theorem mainRun_exit (fs : FS) :
    (mainRun fs).1 = (if (createProjectStructure fs).1 = true then 0 else 1) := by
  simp only [mainRun]
  split
  next f1 out1 heq =>
    cases hv : verifyStructure mainProjectPath f1 with
    | mk b out2 => simp [heq]
  next f1 out1 heq => simp [heq]

theorem create_err_out (fs : FS) (e : PyErr) (h : (createBody fs).2.2 = some e) :
    (createProjectStructure fs).1 = false ∧
    errLine e ∈ (createProjectStructure fs).2.2 := by
  simp only [createProjectStructure]
  split
  next f out e2 heq =>
    rw [heq] at h
    have he : e2 = e := by simpa using h
    subst he
    exact ⟨rfl, by simp⟩
  next f out heq =>
    rw [heq] at h
    cases h

theorem mainRun_err (fs : FS) (e : PyErr) (h : (createBody fs).2.2 = some e) :
    (mainRun fs).1 = 1 ∧ errLine e ∈ (mainRun fs).2.2 := by
  obtain ⟨hfalse, hmem⟩ := create_err_out fs e h
  simp only [mainRun]
  split
  next f1 out1 heq =>
    rw [heq] at hfalse
    cases hfalse
  next f1 out1 heq =>
    rw [heq] at hmem
    exact ⟨rfl, List.mem_append_left _ hmem⟩

theorem mainRun_success (fs : FS) (h : (createBody fs).2.2 = none) :
    (mainRun fs).1 = 0 ∧ setupDoneLine ∈ (mainRun fs).2.2 := by
  have ht : (createProjectStructure fs).1 = true := (create_success_iff fs).mpr h
  simp only [mainRun]
  split
  next f1 out1 heq =>
    cases hv : verifyStructure mainProjectPath f1 with
    | mk b out2 => exact ⟨rfl, by simp⟩
  next f1 out1 heq =>
    rw [heq] at ht
    cases ht

/-! ### A pre-existing file is reported as already present -/

theorem fileLoop_already_mem (l : List String) (f : FS) (out : List String)
    (g : String) (hg : g ∈ l)
    (hex : f.existsPath (projectPath ++ fileComponents g) = true)
    (hsucc : (l.foldl fileStep (f, out, none)).2.2 = none) :
    fileAlreadyLine g ∈ (l.foldl fileStep (f, out, none)).2.1 := by
  induction l generalizing f out with
  | nil => cases hg
  | cons a l ih =>
    rw [List.foldl_cons] at hsucc ⊢
    cases hs : fileStep (f, out, none) a with
    | mk f1 rest =>
      rw [hs] at hsucc
      obtain ⟨out1, o1⟩ := rest
      cases o1 with
      | some e1 => rw [fileLoop_absorb] at hsucc; cases hsucc
      | none =>
        rcases List.mem_cons.mp hg with rfl | hgl
        · have hline : fileAlreadyLine g ∈ out1 := by
            simp only [fileStep] at hs
            split at hs
            next f2 e2 heq => cases hs
            next f2 heq =>
              have hex2 : f2.existsPath (projectPath ++ fileComponents g) = true := by
                obtain ⟨e, he⟩ := lookup_of_existsPath f _ hex
                have hp := mkdirParents_pres f
                  (projectPath ++ fileComponents g).dropLast _ e he
                rw [heq] at hp
                exact existsPath_of_lookup _ _ e hp
              rw [if_pos hex2] at hs
              cases hs
              simp
          exact fileLoop_out_mem l (f1, out1, none) _ hline
        · have hex1 : f1.existsPath (projectPath ++ fileComponents g) = true := by
            obtain ⟨e, he⟩ := lookup_of_existsPath f _ hex
            have hp := fileStep_pres (f, out, none) a _ e he
            rw [hs] at hp
            exact existsPath_of_lookup f1 _ e hp
          exact ih f1 out1 hgl hex1 hsucc

theorem create_already_mem (fs : FS) (g : String) (hg : g ∈ files)
    (hex : fs.existsPath (projectPath ++ fileComponents g) = true)
    (h : (createProjectStructure fs).1 = true) :
    fileAlreadyLine g ∈ (createProjectStructure fs).2.2 := by
  have hb : (createBody fs).2.2 = none := (create_success_iff fs).mp h
  suffices hmem : fileAlreadyLine g ∈ (createBody fs).2.1 by
    simp only [createProjectStructure]
    split
    next f out e heq => rw [heq] at hb; cases hb
    next f out heq =>
      rw [heq] at hmem
      exact List.mem_append_left _ hmem
  simp only [createBody] at hb ⊢
  split at hb
  next f1 e1 heq => cases hb
  next f1 heq =>
    split at hb
    next f2 out2 e2 heq2 => cases hb
    next f2 out2 heq2 =>
      have hex2 : f2.existsPath (projectPath ++ fileComponents g) = true := by
        obtain ⟨e, he⟩ := lookup_of_existsPath fs _ hex
        have hp := mkdirParents_pres fs projectPath _ e he
        rw [heq] at hp
        have hp2 := dirLoop_pres directories (f1, [], none) _ e hp
        rw [heq2] at hp2
        exact existsPath_of_lookup _ _ e hp2
      exact fileLoop_already_mem files f2 out2 g hg hex2 hb

/-! ### The claims -/

/-- C1 (counterexample): the second of two successive runs of
`create_project_structure` from the empty filesystem does not report
every declared item as already present: the subdirectory `renderer` is
reported with exactly the same unconditional checkmark line that the
first (creating) run printed, no already-present line for it exists,
and only the 10 declared files (not the 13 declared items) carry the
`(bereits vorhanden)` already-present marker. -/
theorem c1_second_run_report_counterexample :
    dirLine "renderer" ∈ (createProjectStructure emptyFS).2.2 ∧
    dirLine "renderer" ∈
      (createProjectStructure ((createProjectStructure emptyFS).2.1)).2.2 ∧
    fileAlreadyLine "renderer" ∉
      (createProjectStructure ((createProjectStructure emptyFS).2.1)).2.2 ∧
    ((createProjectStructure ((createProjectStructure emptyFS).2.1)).2.2.filter
      (fun l => files.any (fun g => l == fileAlreadyLine g))).length = 10 ∧
    (directories ++ files).length = 13 := by
  decide

/-- C1 (amended): after any successful run of
`create_project_structure`, a second run returns `True`, leaves the
filesystem state exactly as the first run left it, reports every
declared file as already present, and reports every declared
subdirectory with the same unconditional checkmark line as a creating
run (the report does not distinguish created from already-present for
directories). -/
theorem c1_create_idempotent (fs : FS)
    (h : (createProjectStructure fs).1 = true) :
    createProjectStructure ((createProjectStructure fs).2.1) =
      (true, (createProjectStructure fs).2.1,
       directories.map dirLine ++ files.map fileAlreadyLine ++ [successLine]) := by
  obtain ⟨h1, h2, h3⟩ := create_post fs h
  exact create_stable _ h1 h2 h3

/-- Witness for C1 at the empty filesystem. -/
theorem c1_create_idempotent_witness :
    createProjectStructure ((createProjectStructure emptyFS).2.1) =
      (true, (createProjectStructure emptyFS).2.1,
       directories.map dirLine ++ files.map fileAlreadyLine ++ [successLine]) :=
  c1_create_idempotent emptyFS (by decide)

/-- C2: a declared file whose path already holds a file before the run
keeps exactly its content afterwards (the run never truncates or
overwrites it, and never touches it), and on a successful run the item
is reported as already present. -/
theorem c2_existing_file_preserved (fs : FS) (g : String) (c : String)
    (hg : g ∈ files)
    (h : fs.lookup (projectPath ++ fileComponents g) = some (Entry.file c)) :
    ((createProjectStructure fs).2.1).lookup (projectPath ++ fileComponents g) =
      some (Entry.file c) ∧
    ((createProjectStructure fs).1 = true →
      fileAlreadyLine g ∈ (createProjectStructure fs).2.2) := by
  refine ⟨create_pres fs _ _ h, fun hs => ?_⟩
  exact create_already_mem fs g hg (existsPath_of_lookup fs _ _ h) hs

/-- Witness for C2: `main.js` pre-exists with content `occupied`. -/
theorem c2_existing_file_preserved_witness :
    ((createProjectStructure occupiedFileFS).2.1).lookup
      (projectPath ++ fileComponents "main.js") = some (Entry.file "occupied") ∧
    fileAlreadyLine "main.js" ∈ (createProjectStructure occupiedFileFS).2.2 := by
  obtain ⟨h1, h2⟩ := c2_existing_file_preserved occupiedFileFS "main.js" "occupied"
    (by decide) (by decide)
  exact ⟨h1, h2 (by decide)⟩

/-- C3: whenever `create_project_structure` returns `True`, running
`verify_structure` on the resulting filesystem finds every expected
item present and returns `all_good = True`. -/
theorem c3_create_then_verify (fs : FS)
    (h : (createProjectStructure fs).1 = true) :
    (verifyStructure mainProjectPath ((createProjectStructure fs).2.1)).1 = true := by
  obtain ⟨h1, h2, h3⟩ := create_post fs h
  rw [verifyStructure, verify_fold]
  simp only [Bool.true_and]
  rw [List.all_eq_true]
  intro it hit
  have hcov : ∀ it ∈ expectedItems, it ∈ files ∨
      ∃ d ∈ directories,
        mainProjectPath ++ fileComponents it = projectPath ++ [d] := by decide
  have hmp : mainProjectPath = projectPath := by decide
  rcases hcov it hit with hf | ⟨d, hd, heq⟩
  · rw [hmp]
    exact h3 it hf
  · rw [heq]
    exact existsPath_of_lookup _ _ _ (h2 d hd)

/-- Witness for C3 at the empty filesystem. -/
theorem c3_create_then_verify_witness :
    (verifyStructure mainProjectPath
      ((createProjectStructure emptyFS).2.1)).1 = true :=
  c3_create_then_verify emptyFS (by decide)

/-- C4: each error kind is terminal for the run: the process exits 0
exactly when the body raised no exception, and whenever the body
raises an exception the process exits 1 and the handler message for
that exception appears in the output. -/
theorem c4_errors_terminal (fs : FS) :
    ((createBody fs).2.2 = none ↔ (mainRun fs).1 = 0) ∧
    (∀ e, (createBody fs).2.2 = some e →
      (mainRun fs).1 = 1 ∧ errLine e ∈ (mainRun fs).2.2) := by
  constructor
  · constructor
    · intro h
      exact (mainRun_success fs h).1
    · intro h
      cases ho : (createBody fs).2.2 with
      | none => rfl
      | some e =>
        have h1 := (mainRun_err fs e ho).1
        rw [h1] at h
        cases h
  · intro e he
    exact mainRun_err fs e he

/-- Witness for C4: success on the empty filesystem; a
`FileExistsError` (path conflict) and a `PermissionError` each exit 1
with their handler message printed. -/
theorem c4_errors_terminal_witness :
    (mainRun emptyFS).1 = 0 ∧
    ((mainRun conflictFS).1 = 1 ∧
      errLine (PyErr.fileExistsError (projectPath ++ ["renderer"])) ∈
        (mainRun conflictFS).2.2) ∧
    (mainRun readonlyFS).1 = 1 :=
  ⟨(c4_errors_terminal emptyFS).1.mp (by decide),
   (c4_errors_terminal conflictFS).2
     (PyErr.fileExistsError (projectPath ++ ["renderer"])) (by decide),
   ((c4_errors_terminal readonlyFS).2
     (PyErr.permissionError basePath) (by decide)).1⟩

/-- C5 (counterexample): a declared file whose intended path collides
with an existing non-directory entry does not make the run report a
conflict or exit non-zero: with `main.js` occupied by an existing
file, `create_project_structure` returns `True`, the process exits 0,
and the item is reported as already present. -/
theorem c5_file_collision_counterexample :
    occupiedFileFS.lookup (projectPath ++ fileComponents "main.js") =
      some (Entry.file "occupied") ∧
    (createProjectStructure occupiedFileFS).1 = true ∧
    (mainRun occupiedFileFS).1 = 0 ∧
    fileAlreadyLine "main.js" ∈ (createProjectStructure occupiedFileFS).2.2 := by
  decide

/-- C5 (amended): a path collision aborts the run only for declared
directories: if a declared subdirectory path is occupied by a
non-directory entry, `create_project_structure` returns `False`
(`FileExistsError`, the PathConflict kind) and the process exits 1,
while every entry present before the run — in particular everything
processed before the conflict — remains on disk unchanged. -/
theorem c5_dir_collision_aborts (fs : FS) (d : String) (c : String)
    (hd : d ∈ directories)
    (h : fs.lookup (projectPath ++ [d]) = some (Entry.file c)) :
    (createProjectStructure fs).1 = false ∧ (mainRun fs).1 = 1 ∧
    (∀ p e, fs.lookup p = some e →
      ((createProjectStructure fs).2.1).lookup p = some e) := by
  have hfalse : (createProjectStructure fs).1 = false := by
    cases hb : (createProjectStructure fs).1 with
    | false => rfl
    | true =>
      obtain ⟨h1, h2, h3⟩ := create_post fs hb
      have hdir := h2 d hd
      have hpres := create_pres fs (projectPath ++ [d]) (Entry.file c) h
      rw [hpres] at hdir
      cases hdir
  refine ⟨hfalse, ?_, fun p e he => create_pres fs p e he⟩
  rw [mainRun_exit fs, hfalse]
  simp

/-- Witness for C5 (amended): `renderer` occupied by a file content
`x` makes the run fail with exit 1 and keeps the entry. -/
theorem c5_dir_collision_aborts_witness :
    (createProjectStructure conflictFS).1 = false ∧
    (mainRun conflictFS).1 = 1 ∧
    ((createProjectStructure conflictFS).2.1).lookup
      (projectPath ++ ["renderer"]) = some (Entry.file "x") := by
  obtain ⟨h1, h2, h3⟩ := c5_dir_collision_aborts conflictFS "renderer" "x"
    (by decide) (by decide)
  exact ⟨h1, h2, h3 (projectPath ++ ["renderer"]) (Entry.file "x") (by decide)⟩

/-- C6: `verify_structure` checks each expected item in declaration
order, emits one present or missing line per item in that order, and
returns the conjunction of the per-item existence checks as
`all_good`. -/
theorem c6_verify_result (pp : FPath) (fs : FS) :
    verifyStructure pp fs =
      (expectedItems.all (fun it => fs.existsPath (pp ++ fileComponents it)),
       expectedItems.map (fun it =>
         if fs.existsPath (pp ++ fileComponents it) then "  ✓ " ++ it
         else "  ❌ " ++ it ++ " - FEHLT!")) := by
  rw [verifyStructure, verify_fold]
  simp

/-- C7: on a filesystem where nothing exists (in particular none of
the parent directories of the hardcoded root), the run still succeeds,
the whole chain of intermediate directories up to and including the
project root exists afterwards, and so does the parent directory chain
of every declared file. -/
theorem c7_parent_creation (fs : FS)
    (h1 : fs.entries = []) (h2 : fs.readonly = []) :
    (createProjectStructure fs).1 = true ∧
    (∀ q ∈ prefixesOf projectPath,
      ((createProjectStructure fs).2.1).lookup q = some Entry.dir) ∧
    (∀ g ∈ files, ∀ q ∈ prefixesOf (projectPath ++ fileComponents g).dropLast,
      ((createProjectStructure fs).2.1).lookup q = some Entry.dir) := by
  obtain ⟨en, ro⟩ := fs
  have h1e : en = [] := h1
  have h2e : ro = [] := h2
  subst h1e
  subst h2e
  decide

/-- Witness for C7 at the empty filesystem. -/
theorem c7_parent_creation_witness :
    (createProjectStructure emptyFS).1 = true ∧
    (∀ q ∈ prefixesOf projectPath,
      ((createProjectStructure emptyFS).2.1).lookup q = some Entry.dir) ∧
    (∀ g ∈ files, ∀ q ∈ prefixesOf (projectPath ++ fileComponents g).dropLast,
      ((createProjectStructure emptyFS).2.1).lookup q = some Entry.dir) :=
  c7_parent_creation emptyFS rfl rfl

/-- C8: the exit code is a function of the boolean returned by
`create_project_structure` alone — 0 when it returned `True`, 1
otherwise — and whenever it returned `True` the final success message
is printed, whatever `verify_structure` reported. -/
theorem c8_exit_ignores_verify (fs : FS) :
    (mainRun fs).1 = (if (createProjectStructure fs).1 = true then 0 else 1) ∧
    ((createProjectStructure fs).1 = true →
      (mainRun fs).1 = 0 ∧ setupDoneLine ∈ (mainRun fs).2.2) :=
  ⟨mainRun_exit fs,
   fun h => mainRun_success fs ((create_success_iff fs).mp h)⟩

/-- Witness for C8 at the empty filesystem. -/
theorem c8_exit_ignores_verify_witness :
    (mainRun emptyFS).1 = 0 ∧ setupDoneLine ∈ (mainRun emptyFS).2.2 :=
  (c8_exit_ignores_verify emptyFS).2 (by decide)

/-- C9: the expected-item list hardcoded in `verify_structure` is
exactly the flattened union of the directory and file lists hardcoded
in `create_project_structure` (same items, no duplicates on either
side), and the project path hardcoded in the entry point equals the
project path built in `create_project_structure`. -/
theorem c9_layouts_agree :
    mainProjectPath = projectPath ∧
    expectedItems.Perm (directories ++ files) ∧
    expectedItems.Nodup ∧ (directories ++ files).Nodup := by
  refine ⟨by decide, by decide, by decide, by decide⟩

/-- C10: `create_project_structure` is total and never propagates an
exception: it returns `True` exactly when its body raised no
exception, and `False` exactly when the body raised some exception. -/
theorem c10_create_total (fs : FS) :
    ((createProjectStructure fs).1 = true ↔ (createBody fs).2.2 = none) ∧
    ((createProjectStructure fs).1 = false ↔
      ∃ e, (createBody fs).2.2 = some e) := by
  refine ⟨create_success_iff fs, ?_, ?_⟩
  · intro h
    cases ho : (createBody fs).2.2 with
    | none =>
      have ht := (create_success_iff fs).mpr ho
      rw [ht] at h
      cases h
    | some e => exact ⟨e, rfl⟩
  · rintro ⟨e, he⟩
    cases hb : (createProjectStructure fs).1 with
    | false => rfl
    | true =>
      have hn := (create_success_iff fs).mp hb
      rw [he] at hn
      cases hn

end CreateProject
